import Mathlib

/-!
A shallow embedding of the muspy core music container (`src/muspy/music.py`)
and proofs about its container-level operations: reset, remove_invalid,
get_active_length / get_length, append, sort, transpose, and the
representation dispatch `to` / `to_representation` together with the
converter-forwarding instance methods.

Python conventions are modelled as follows: numeric time/pitch values are
`Int`; a Python function that can raise returns `Option`/`Except`, where
`none`/`.error` is the raised exception (an `IndexError` from `list[-1]` on an
empty list, a `ValueError` from `max([])`, a `TypeError`/`ValueError` raised
explicitly); `list.sort(key=...)` is a stable insertion sort by the key;
`str.lower()` is an ASCII character-wise lowering; the Python substring test
`a in b` on strings is list-infix containment of the character lists.

The entity classes (`TimeSignature`, `KeySignature`, `Tempo`, `Lyric`,
`Annotation` — here `Annot`, `Note`, `Track`, `MetaData`, `TimingInfo`) and the
helpers `remove_invalid_from_list` and the Track-level methods live in
`classes.py` / `utils.py`, which are not part of the sources under study;
they are modelled from the spec, as marked on each such definition.
-/

/-- Modelled from the spec: `MetaData` (descriptive, non-temporal information;
`classes.py` is not among the sources). Only a representative field is kept. -/
structure MetaData where
  title : String
deriving DecidableEq

/-- Modelled from the spec: the fresh default `MetaData()` value. -/
def MetaData.default : MetaData := ⟨""⟩

/-- Modelled from the spec: `TimingInfo` (tick resolution / time basis;
`classes.py` is not among the sources). Only a representative field is kept. -/
structure TimingInfo where
  resolution : Int
deriving DecidableEq

/-- Modelled from the spec: the fresh default `TimingInfo()` value. -/
def TimingInfo.default : TimingInfo := ⟨0⟩

/-- Modelled from the spec: a time signature. It carries the ordering field
`start` (the field `Music.sort` orders by) and the field `time` (the field
`Music.get_length` reads), plus an abstract validity flag standing for the
outcome of its `validate()` method, whose body is not among the sources. -/
structure TimeSignature where
  start : Int
  time : Int
  is_valid : Bool
deriving DecidableEq

/-- Modelled from the spec: a key signature, with its `time` field and an
abstract validity flag for the outcome of `validate()`. -/
structure KeySignature where
  time : Int
  is_valid : Bool
deriving DecidableEq

/-- Modelled from the spec: a tempo marking, with its `time` field and an
abstract validity flag for the outcome of `validate()`. -/
structure Tempo where
  time : Int
  is_valid : Bool
deriving DecidableEq

/-- Modelled from the spec: a lyric token, with its `time` field and an
abstract validity flag for the outcome of `validate()`. -/
structure Lyric where
  time : Int
  lyric : String
  is_valid : Bool
deriving DecidableEq

/-- Modelled from the spec: a free-form annotation (the `Annotation` entity),
with its `time` field and an abstract validity flag for `validate()`. -/
structure Annot where
  time : Int
  is_valid : Bool
deriving DecidableEq

/-- Modelled from the spec: a note, with onset `start`, note-off `end_time`
(the `end` attribute), `pitch`, `velocity`, and an abstract validity flag. -/
structure Note where
  start : Int
  end_time : Int
  pitch : Int
  velocity : Int
  is_valid : Bool
deriving DecidableEq

/-- Modelled from the spec: a track — an ordered collection of notes plus its
own lyrics and annotations. -/
structure Track where
  notes : List Note
  lyrics : List Lyric
  annotations : List Annot
deriving DecidableEq

/-- The music container of `src/muspy/music.py`, with its nine attributes.
`downbeats` holds raw numeric time positions. -/
structure Music where
  meta_data : MetaData
  timing : TimingInfo
  time_signatures : List TimeSignature
  key_signatures : List KeySignature
  tempos : List Tempo
  downbeats : List Int
  lyrics : List Lyric
  annotations : List Annot
  tracks : List Track
deriving DecidableEq

/-! ### Python list/number primitives -/

/-- Python `max` of a list of `Int` values: `none` models the `ValueError`
raised by `max([])`. -/
def listMax : List Int → Option Int
  | [] => none
  | x :: rest => some ((listMax rest).elim x (max x))

/-- Sequencing a list of possibly-raising subcomputations, as a Python list
comprehension does: the first exception propagates. -/
def seqOptions : List (Option Int) → Option (List Int)
  | [] => some []
  | none :: _ => none
  | some x :: rest => (seqOptions rest).map (x :: ·)

/-- Insert into a sorted list in front of the first element the comparison
does not place strictly before — the building block of a stable sort. -/
def orderedIns {α : Type} (le : α → α → Bool) (x : α) : List α → List α
  | [] => [x]
  | y :: ys => if le x y then x :: y :: ys else y :: orderedIns le x ys

/-- Stable sort by a boolean comparison, modelling Python `list.sort`. -/
def stableSort {α : Type} (le : α → α → Bool) : List α → List α
  | [] => []
  | x :: xs => orderedIns le x (stableSort le xs)

/-- ASCII lowering of one character, as Python `str.lower()` does on the
ASCII selector strings in play. -/
def lowerChar (c : Char) : Char :=
  if 'A' ≤ c ∧ c ≤ 'Z' then Char.ofNat (c.toNat + 32) else c

/-- Python `str.lower()` restricted to ASCII content. -/
def pyLower (s : String) : String := String.mk (s.data.map lowerChar)

/-- The Python string containment test `a in b`: `a` is a contiguous
substring of `b` (the empty string is a substring of everything). -/
def isSubstrOf (a b : String) : Bool := decide (a.data <:+: b.data)

/-! ### Operations of the container and of its entities -/

/-- `Music.reset` (music.py lines 104-113): clears the track list and the five
time-stamped sequences and installs fresh defaults for `meta_data` and
`timing`. The source never touches `downbeats`. -/
def Music.reset (m : Music) : Music :=
  { m with
    meta_data := MetaData.default
    timing := TimingInfo.default
    time_signatures := []
    key_signatures := []
    tempos := []
    lyrics := []
    annotations := []
    tracks := [] }

/-- Modelled from the spec: `remove_invalid_from_list` of `utils.py` (not
among the sources) rebuilds a list keeping exactly the elements whose
`validate()` succeeds; the validity outcome is the element's flag. -/
def remove_invalid_from_list {α : Type} (is_valid : α → Bool) (l : List α) :
    List α :=
  l.filter is_valid

/-- Modelled from the spec: `Track.remove_invalid` prunes the track's own
invalid notes, lyrics and annotations. -/
def Track.remove_invalid (t : Track) : Track :=
  { t with
    notes := remove_invalid_from_list (fun n => n.is_valid) t.notes
    lyrics := remove_invalid_from_list (fun l => l.is_valid) t.lyrics
    annotations := remove_invalid_from_list (fun a => a.is_valid) t.annotations }

/-- `Music.remove_invalid` (music.py lines 130-143): rebuilds the five entity
sequences keeping the valid elements and asks every track to prune itself;
the track list itself is only mapped over, never shortened. -/
def Music.remove_invalid (m : Music) : Music :=
  { m with
    time_signatures :=
      remove_invalid_from_list (fun x => x.is_valid) m.time_signatures
    key_signatures :=
      remove_invalid_from_list (fun x => x.is_valid) m.key_signatures
    tempos := remove_invalid_from_list (fun x => x.is_valid) m.tempos
    lyrics := remove_invalid_from_list (fun x => x.is_valid) m.lyrics
    annotations := remove_invalid_from_list (fun x => x.is_valid) m.annotations
    tracks := m.tracks.map Track.remove_invalid }

/-- Modelled from the spec: `Track.get_active_length` returns the time at
which the last note in the track ends (its note-off); per the spec both the
sorted and the unsorted strategy return this same value, and the computation
fails (`max` of an empty aggregate) when the track has no notes. -/
def Track.get_active_length (t : Track) (is_sorted : Bool) : Option Int :=
  let _ := is_sorted
  listMax (t.notes.map (fun n => n.end_time))

/-- `Music.get_active_length` (music.py lines 145-149): Python
`max([track.get_active_length(is_sorted) for track in self.tracks])`; any
track failure propagates and the outer `max` fails on an empty track list. -/
def Music.get_active_length (m : Music) (is_sorted : Bool) : Option Int :=
  (seqOptions (m.tracks.map fun t => t.get_active_length is_sorted)).bind
    listMax

/-- `Music.get_length` (music.py lines 151-174). The sorted path indexes the
last element of each of the five time-stamped sequences (`[-1]`, an
`IndexError` on an empty list, hence `none`); the unsorted path takes the
maximum over each full sequence (`max([])` fails on an empty one). Note the
sorted path reads the `time` field of the last time signature even though
`sort` orders time signatures by `start`. -/
def Music.get_length (m : Music) (is_sorted : Bool) : Option Int :=
  if is_sorted then do
    let a ← m.get_active_length is_sorted
    let ts ← m.time_signatures.getLast?
    let ks ← m.key_signatures.getLast?
    let tp ← m.tempos.getLast?
    let ly ← m.lyrics.getLast?
    let an ← m.annotations.getLast?
    some (max a (max ts.time (max ks.time (max tp.time (max ly.time an.time)))))
  else do
    let a ← m.get_active_length is_sorted
    let t1 ← listMax (m.time_signatures.map fun x => x.time)
    let t2 ← listMax (m.key_signatures.map fun x => x.time)
    let t3 ← listMax (m.tempos.map fun x => x.time)
    let t4 ← listMax (m.lyrics.map fun x => x.time)
    let t5 ← listMax (m.annotations.map fun x => x.time)
    some (max a (max t1 (max t2 (max t3 (max t4 t5)))))

/-- A well-typed argument to `Music.append`: one of the muspy entity objects,
or (constructor `other`) an object of any type outside the entity family,
identified by its type name. -/
inductive MuspyObject where
  | timeSignature (ts : TimeSignature)
  | keySignature (ks : KeySignature)
  | tempo (t : Tempo)
  | lyric (l : Lyric)
  | annot (a : Annot)
  | track (t : Track)
  | note (n : Note)
  | other (typeName : String)
deriving DecidableEq

/-- The name Python's `type(obj)` reports for the object, used in the
`TypeError` message of `append`. -/
def MuspyObject.typeName : MuspyObject → String
  | .timeSignature _ => "TimeSignature"
  | .keySignature _ => "KeySignature"
  | .tempo _ => "Tempo"
  | .lyric _ => "Lyric"
  | .annot _ => "Annot"
  | .track _ => "Track"
  | .note _ => "Note"
  | .other s => s

/-- `Music.append` (music.py lines 176-204): single dispatch on the concrete
type through the `isinstance` chain TimeSignature, KeySignature, Tempo,
Lyric, Annotation, Track; anything else — including a `Note` — raises a
`TypeError` whose message nevertheless lists Note among the expected types.
The error is raised before any list is touched, so `.error` carries no
mutated state. -/
def Music.append (m : Music) (obj : MuspyObject) : Except String Music :=
  match obj with
  | .timeSignature ts =>
      .ok { m with time_signatures := m.time_signatures ++ [ts] }
  | .keySignature ks =>
      .ok { m with key_signatures := m.key_signatures ++ [ks] }
  | .tempo t => .ok { m with tempos := m.tempos ++ [t] }
  | .lyric l => .ok { m with lyrics := m.lyrics ++ [l] }
  | .annot a => .ok { m with annotations := m.annotations ++ [a] }
  | .track t => .ok { m with tracks := m.tracks ++ [t] }
  | o =>
      .error ("Expect TimeSignature, KeySignature, Tempo, Note, Lyric, " ++
        "Annotation or Track object, but got " ++ o.typeName ++ ".")

/-- Modelled from the spec: `Track.sort` sorts the track's own notes, lyrics
and annotations by time (notes by onset). -/
def Track.sort (t : Track) : Track :=
  { t with
    notes := stableSort (fun a b => decide (a.start ≤ b.start)) t.notes
    lyrics := stableSort (fun a b => decide (a.time ≤ b.time)) t.lyrics
    annotations :=
      stableSort (fun a b => decide (a.time ≤ b.time)) t.annotations }

/-- `Music.sort` (music.py lines 222-238): stable in-place sorts of the five
time-stamped sequences — `time_signatures` by the `start` field, the other
four by `time` — then each track sorts itself. `downbeats` is not touched. -/
def Music.sort (m : Music) : Music :=
  { m with
    time_signatures :=
      stableSort (fun a b => decide (a.start ≤ b.start)) m.time_signatures
    key_signatures :=
      stableSort (fun a b => decide (a.time ≤ b.time)) m.key_signatures
    tempos := stableSort (fun a b => decide (a.time ≤ b.time)) m.tempos
    lyrics := stableSort (fun a b => decide (a.time ≤ b.time)) m.lyrics
    annotations :=
      stableSort (fun a b => decide (a.time ≤ b.time)) m.annotations
    tracks := m.tracks.map Track.sort }

/-- Modelled from the spec: `Note.transpose` shifts the pitch by a signed
number of semitones, with no bounds checking. -/
def Note.transpose (n : Note) (semitone : Int) : Note :=
  { n with pitch := n.pitch + semitone }

/-- Modelled from the spec: `Track.transpose` transposes every note. -/
def Track.transpose (t : Track) (semitone : Int) : Track :=
  { t with notes := t.notes.map (fun n => n.transpose semitone) }

/-- `Music.transpose` (music.py lines 240-251): every track transposes its
notes by the given signed semitone count. -/
def Music.transpose (m : Music) (semitone : Int) : Music :=
  { m with tracks := m.tracks.map (fun t => t.transpose semitone) }

/-! ### Representation dispatch -/

/-- The module-level converters `Music.to` dispatches to. They are external
collaborators (`representations.py` / `io.py` are not among the sources), so
they are abstract functions into a result type `ρ`. -/
structure Converters (ρ : Type) where
  to_representation : Music → String → ρ
  to_pretty_midi : Music → ρ
  to_pypianoroll : Music → ρ

/-- `Music.to` (music.py lines 359-382). The first branch is a genuine tuple
membership test on the lowered selector. The second and third branches are
`target.lower() in ("pretty_midi")` and `target.lower() in ("pypianoroll")`:
the parenthesised operand is a plain string, not a tuple, so Python performs
a substring test. The final branch raises
`ValueError("Unsupported target : {target}.")`. -/
def Music.to {ρ : Type} (cv : Converters ρ) (m : Music) (target : String) :
    Except String ρ :=
  if ["event", "event-based", "note", "note-based", "pianoroll",
      "piano-roll"].contains (pyLower target) then
    .ok (cv.to_representation m target)
  else if isSubstrOf (pyLower target) "pretty_midi" then
    .ok (cv.to_pretty_midi m)
  else if isSubstrOf (pyLower target) "pypianoroll" then
    .ok (cv.to_pypianoroll m)
  else
    .error ("Unsupported target : " ++ target ++ ".")

/-- `Music.to_representation` (music.py lines 384-394): returns the
module-level converter's result (`return to_representation(self, target)`);
`some` marks that a value is returned. -/
def Music.to_representation {ρ : Type} (conv : Music → String → ρ)
    (m : Music) (target : String) : Option ρ :=
  some (conv m target)

/-- `Music.to_event_representation` (music.py lines 396-398): the instance
method calls the module-level converter but has no `return` statement, so it
returns Python `None` — modelled as computing `conv m` and yielding `none`. -/
def Music.to_event_representation {ρ : Type} (conv : Music → ρ) (m : Music) :
    Option ρ :=
  let _ := conv m
  none

/-- `Music.to_note_representation` (music.py lines 400-402): calls the
converter, discards the result, returns `None`. -/
def Music.to_note_representation {ρ : Type} (conv : Music → ρ) (m : Music) :
    Option ρ :=
  let _ := conv m
  none

/-- `Music.to_pianoroll_representation` (music.py lines 404-406): calls the
converter, discards the result, returns `None`. -/
def Music.to_pianoroll_representation {ρ : Type} (conv : Music → ρ)
    (m : Music) : Option ρ :=
  let _ := conv m
  none

/-- `Music.to_pretty_midi` (music.py lines 408-410): calls the converter,
discards the result, returns `None` despite the annotated return type. -/
def Music.to_pretty_midi {ρ : Type} (conv : Music → ρ) (m : Music) :
    Option ρ :=
  let _ := conv m
  none

/-- `Music.to_pypianoroll` (music.py lines 412-414): calls the converter,
discards the result, returns `None` despite the annotated return type. -/
def Music.to_pypianoroll {ρ : Type} (conv : Music → ρ) (m : Music) :
    Option ρ :=
  let _ := conv m
  none

/-! ### Helper lemmas about the list primitives -/

theorem listMax_eq_none_iff {l : List Int} : listMax l = none ↔ l = [] := by
  cases l <;> simp [listMax]

theorem listMax_perm {l l' : List Int} (h : l.Perm l') :
    listMax l = listMax l' := by
  induction h with
  | nil => rfl
  | cons x _ ih => simp [listMax, ih]
  | swap x y l =>
      cases h : listMax l with
      | none => simp [listMax, h, Option.elim, max_comm]
      | some m => simp [listMax, h, Option.elim, max_left_comm]
  | trans _ _ ih1 ih2 => exact ih1.trans ih2

theorem orderedIns_perm {α : Type} (le : α → α → Bool) (x : α) (l : List α) :
    (orderedIns le x l).Perm (x :: l) := by
  induction l with
  | nil => exact List.Perm.refl _
  | cons y ys ih =>
      by_cases h : le x y = true
      · simp [orderedIns, h]
      · simp only [orderedIns, if_neg h]
        exact (ih.cons y).trans (List.Perm.swap x y ys)

theorem stableSort_perm {α : Type} (le : α → α → Bool) (l : List α) :
    (stableSort le l).Perm l := by
  induction l with
  | nil => exact List.Perm.refl _
  | cons x xs ih =>
      exact (orderedIns_perm le x (stableSort le xs)).trans (ih.cons x)

theorem mem_orderedIns {α : Type} {le : α → α → Bool} {x a : α} {l : List α} :
    a ∈ orderedIns le x l ↔ a = x ∨ a ∈ l := by
  rw [(orderedIns_perm le x l).mem_iff, List.mem_cons]

theorem pairwise_orderedIns {α : Type} {le : α → α → Bool}
    (htrans : ∀ a b c, le a b = true → le b c = true → le a c = true)
    (htot : ∀ a b, le a b = true ∨ le b a = true)
    (x : α) {l : List α}
    (hl : List.Pairwise (fun a b => le a b = true) l) :
    List.Pairwise (fun a b => le a b = true) (orderedIns le x l) := by
  induction l with
  | nil => simp [orderedIns]
  | cons y ys ih =>
      rcases List.pairwise_cons.mp hl with ⟨hy, hys⟩
      by_cases hxy : le x y = true
      · simp only [orderedIns, if_pos hxy]
        refine List.pairwise_cons.mpr ⟨?_, hl⟩
        intro a ha
        rcases List.mem_cons.mp ha with rfl | ha
        · exact hxy
        · exact htrans x y a hxy (hy a ha)
      · simp only [orderedIns, if_neg hxy]
        refine List.pairwise_cons.mpr ⟨?_, ih hys⟩
        intro a ha
        rcases mem_orderedIns.mp ha with rfl | ha
        · rcases htot a y with h | h
          · exact absurd h hxy
          · exact h
        · exact hy a ha

theorem pairwise_stableSort {α : Type} {le : α → α → Bool}
    (htrans : ∀ a b c, le a b = true → le b c = true → le a c = true)
    (htot : ∀ a b, le a b = true ∨ le b a = true) (l : List α) :
    List.Pairwise (fun a b => le a b = true) (stableSort le l) := by
  induction l with
  | nil => simp [stableSort]
  | cons x xs ih => exact pairwise_orderedIns htrans htot x ih

theorem pairwise_stableSort_le {α : Type} (f : α → Int) (l : List α) :
    List.Pairwise (fun a b => f a ≤ f b)
      (stableSort (fun a b => decide (f a ≤ f b)) l) := by
  have h := @pairwise_stableSort _ (fun a b => decide (f a ≤ f b))
    (fun a b c hab hbc =>
      decide_eq_true (le_trans (of_decide_eq_true hab) (of_decide_eq_true hbc)))
    (fun a b => by
      rcases le_total (f a) (f b) with h | h
      · exact Or.inl (decide_eq_true h)
      · exact Or.inr (decide_eq_true h)) l
  exact h.imp fun hab => of_decide_eq_true hab

theorem mem_of_getLast? {α : Type} {l : List α} {a : α}
    (h : l.getLast? = some a) : a ∈ l := by
  rcases List.getLast?_eq_some_iff.mp h with ⟨ys, rfl⟩
  simp

theorem listMax_of_sorted_getLast {α : Type} (f : α → Int) :
    ∀ {l : List α} {a : α},
      List.Pairwise (fun u v => f u ≤ f v) l → l.getLast? = some a →
        listMax (l.map f) = some (f a) := by
  intro l
  induction l with
  | nil => intro a _ h; cases h
  | cons x rest ih =>
      intro a hs hl
      rcases List.pairwise_cons.mp hs with ⟨hx, hrest⟩
      cases rest with
      | nil =>
          have : x = a := by simpa using hl
          subst this
          simp [listMax]
      | cons y rest' =>
          rw [List.getLast?_cons_cons] at hl
          have hmax := ih hrest hl
          have hmem : a ∈ y :: rest' := mem_of_getLast? hl
          have hxa : f x ≤ f a := hx a hmem
          have hstep : listMax (List.map f (x :: y :: rest'))
              = some ((listMax (List.map f (y :: rest'))).elim (f x)
                  (max (f x))) := rfl
          rw [hstep, hmax]
          simp [Option.elim, max_eq_right hxa]

theorem stableSort_getLast_max {α : Type} (f g : α → Int) (l : List α)
    (hfg : ∀ x ∈ l, f x = g x) (hl : l ≠ []) :
    ∃ b, (stableSort (fun u v => decide (f u ≤ f v)) l).getLast? = some b ∧
      b ∈ l ∧ listMax (l.map g) = some (g b) := by
  have hperm : (stableSort (fun u v => decide (f u ≤ f v)) l).Perm l :=
    stableSort_perm _ l
  have hne : stableSort (fun u v => decide (f u ≤ f v)) l ≠ [] := by
    intro h
    rw [h] at hperm
    exact hl hperm.symm.eq_nil
  obtain ⟨b, hb⟩ :
      ∃ b, (stableSort (fun u v => decide (f u ≤ f v)) l).getLast? = some b := by
    cases hgl : (stableSort (fun u v => decide (f u ≤ f v)) l).getLast? with
    | none =>
        rw [List.getLast?_eq_none_iff] at hgl
        exact absurd hgl hne
    | some b => exact ⟨b, rfl⟩
  have hmem : b ∈ l := hperm.mem_iff.mp (mem_of_getLast? hb)
  have hsorted : List.Pairwise (fun u v => g u ≤ g v)
      (stableSort (fun u v => decide (f u ≤ f v)) l) := by
    refine (pairwise_stableSort_le f l).imp_of_mem ?_
    intro u v hu hv huv
    rw [← hfg u (hperm.mem_iff.mp hu), ← hfg v (hperm.mem_iff.mp hv)]
    exact huv
  have h1 : listMax ((stableSort (fun u v => decide (f u ≤ f v)) l).map g)
      = some (g b) := listMax_of_sorted_getLast g hsorted hb
  have h2 : listMax (l.map g)
      = listMax ((stableSort (fun u v => decide (f u ≤ f v)) l).map g) :=
    listMax_perm ((hperm.map g).symm)
  exact ⟨b, hb, hmem, h2.trans h1⟩

/-! ### Further helper lemmas -/

theorem filter_self_idem {α : Type} (p : α → Bool) (l : List α) :
    (l.filter p).filter p = l.filter p := by
  rw [List.filter_filter]
  exact List.filter_congr fun x _ => Bool.and_self (p x)

theorem track_remove_invalid_idem (t : Track) :
    t.remove_invalid.remove_invalid = t.remove_invalid := by
  cases t
  simp [Track.remove_invalid, remove_invalid_from_list, filter_self_idem]

theorem note_transpose_cancel (x : Note) (n : Int) :
    (x.transpose n).transpose (-n) = x := by
  cases x
  simp [Note.transpose]

theorem track_transpose_cancel (t : Track) (n : Int) :
    (t.transpose n).transpose (-n) = t := by
  cases t with
  | mk ns ls as =>
      simp only [Track.transpose, List.map_map]
      congr 1
      have h : ∀ x ∈ ns,
          ((fun v => Note.transpose v (-n)) ∘ fun v => Note.transpose v n) x
            = id x := fun x _ => note_transpose_cancel x n
      rw [List.map_congr_left h, List.map_id]

/-! ### Shared concrete values for witnesses and counterexamples -/

/-- A converter family producing string tokens, used to observe which
converter the dispatch invokes. -/
def cvStr : Converters String :=
  ⟨fun _ t => "representation of " ++ t,
   fun _ => "pretty_midi result",
   fun _ => "pypianoroll result"⟩

/-- The default-constructed container: every sequence empty, default
meta_data and timing. -/
def emptyMusic : Music :=
  ⟨MetaData.default, TimingInfo.default, [], [], [], [], [], [], []⟩

/-- A track holding one note that ends at time 0. -/
def trackZero : Track := ⟨[⟨0, 0, 60, 64, true⟩], [], []⟩

/-- A fully populated container whose two time signatures have `start`
values ordered oppositely to their `time` values. -/
def mC2cex : Music :=
  ⟨MetaData.default, TimingInfo.default,
   [⟨0, 10, true⟩, ⟨5, 0, true⟩],
   [⟨0, true⟩], [⟨0, true⟩], [], [⟨0, "", true⟩], [⟨0, true⟩], [trackZero]⟩

/-- A fully populated container in which every time signature's `start`
equals its `time`. -/
def mWit : Music :=
  ⟨MetaData.default, TimingInfo.default,
   [⟨5, 5, true⟩, ⟨2, 2, true⟩],
   [⟨1, true⟩], [⟨3, true⟩], [7], [⟨4, "la", true⟩], [⟨6, true⟩],
   [⟨[⟨0, 9, 60, 64, true⟩, ⟨1, 4, 62, 64, false⟩], [], []⟩]⟩

/-- A container with non-empty tracks and non-empty time-stamped sequences
whose single track has no notes at all. -/
def mC9cex : Music :=
  ⟨MetaData.default, TimingInfo.default,
   [⟨0, 0, true⟩], [⟨0, true⟩], [⟨0, true⟩], [], [⟨0, "", true⟩],
   [⟨0, true⟩], [⟨[], [], []⟩]⟩

/-! ### Claim theorems -/

/-- C1 (code bug): `Music.to` is meant to reject every selector outside the
supported set with a `ValueError` naming the value, and its docstring lists
exactly five supported values; but the branch `target.lower() in
("pretty_midi")` is a substring test (the parenthesised operand is a string,
not a tuple), so the unsupported selector "pretty" is silently dispatched to
the pretty_midi converter instead of raising. The rejected-selector scenario
for "unsupported" does behave as claimed. -/
theorem to_unsupported_selector_bug :
    Music.to cvStr emptyMusic ("pretty") = .ok ("pretty_midi result") ∧
    (["event", "event-based", "note", "note-based", "pianoroll",
      "piano-roll", "pretty_midi", "pypianoroll"].contains
        (pyLower ("pretty"))) = false ∧
    Music.to cvStr emptyMusic ("unsupported")
      = .error ("Unsupported target : unsupported.") :=
  ⟨rfl, by decide, rfl⟩

/-- C3: `append` routes each of the six accepted entity types to exactly its
own sequence, appending at the end and leaving every other attribute
untouched (the record updates fix all other fields); any other object —
a `Note` or a foreign type — yields a `TypeError` and no mutation (the
error is raised before any list is touched). -/
theorem append_routes_by_type (m : Music) :
    (∀ ts, m.append (.timeSignature ts)
        = .ok { m with time_signatures := m.time_signatures ++ [ts] }) ∧
    (∀ ks, m.append (.keySignature ks)
        = .ok { m with key_signatures := m.key_signatures ++ [ks] }) ∧
    (∀ t, m.append (.tempo t) = .ok { m with tempos := m.tempos ++ [t] }) ∧
    (∀ l, m.append (.lyric l) = .ok { m with lyrics := m.lyrics ++ [l] }) ∧
    (∀ a, m.append (.annot a)
        = .ok { m with annotations := m.annotations ++ [a] }) ∧
    (∀ t, m.append (.track t) = .ok { m with tracks := m.tracks ++ [t] }) ∧
    (∀ n, ∃ msg, m.append (.note n) = .error msg) ∧
    (∀ s, ∃ msg, m.append (.other s) = .error msg) :=
  ⟨fun _ => rfl, fun _ => rfl, fun _ => rfl, fun _ => rfl, fun _ => rfl,
   fun _ => rfl, fun _ => ⟨_, rfl⟩, fun _ => ⟨_, rfl⟩⟩

/-- C4: after `Music.sort`, the five time-stamped sequences are
non-decreasing by their ordering fields — `time_signatures` by `start`, the
other four by `time` — and `downbeats` is exactly what it was before. -/
theorem sort_orders_sequences (m : Music) :
    List.Pairwise (fun a b => a.start ≤ b.start) m.sort.time_signatures ∧
    List.Pairwise (fun a b => a.time ≤ b.time) m.sort.key_signatures ∧
    List.Pairwise (fun a b => a.time ≤ b.time) m.sort.tempos ∧
    List.Pairwise (fun a b => a.time ≤ b.time) m.sort.lyrics ∧
    List.Pairwise (fun a b => a.time ≤ b.time) m.sort.annotations ∧
    m.sort.downbeats = m.downbeats :=
  ⟨pairwise_stableSort_le (fun x => x.start) m.time_signatures,
   pairwise_stableSort_le (fun x => x.time) m.key_signatures,
   pairwise_stableSort_le (fun x => x.time) m.tempos,
   pairwise_stableSort_le (fun x => x.time) m.lyrics,
   pairwise_stableSort_le (fun x => x.time) m.annotations,
   rfl⟩

/-- C5: `reset` empties the track list and the five time-stamped sequences
and installs fresh default `meta_data` and `timing`, while `downbeats` is
left exactly as it was (the source assigns every attribute except it). -/
theorem reset_restores_defaults (m : Music) :
    m.reset.meta_data = MetaData.default ∧
    m.reset.timing = TimingInfo.default ∧
    m.reset.time_signatures = [] ∧
    m.reset.key_signatures = [] ∧
    m.reset.tempos = [] ∧
    m.reset.lyrics = [] ∧
    m.reset.annotations = [] ∧
    m.reset.tracks = [] ∧
    m.reset.downbeats = m.downbeats :=
  ⟨rfl, rfl, rfl, rfl, rfl, rfl, rfl, rfl, rfl⟩

/-- C6: `remove_invalid` is idempotent; it is total (hence never raises in
the model); it rebuilds each of the five entity sequences keeping exactly
the elements whose validation succeeds; and it never drops a track — the
track list is the elementwise pruning of the old one, of the same length. -/
theorem remove_invalid_idempotent (m : Music) :
    m.remove_invalid.remove_invalid = m.remove_invalid ∧
    m.remove_invalid.time_signatures
      = m.time_signatures.filter (fun x => x.is_valid) ∧
    m.remove_invalid.key_signatures
      = m.key_signatures.filter (fun x => x.is_valid) ∧
    m.remove_invalid.tempos = m.tempos.filter (fun x => x.is_valid) ∧
    m.remove_invalid.lyrics = m.lyrics.filter (fun x => x.is_valid) ∧
    m.remove_invalid.annotations
      = m.annotations.filter (fun x => x.is_valid) ∧
    m.remove_invalid.tracks = m.tracks.map Track.remove_invalid ∧
    m.remove_invalid.tracks.length = m.tracks.length := by
  refine ⟨?_, rfl, rfl, rfl, rfl, rfl, rfl, List.length_map _ _⟩
  cases m with
  | mk md tm ts ks tp db ly an tr =>
      simp only [Music.remove_invalid, remove_invalid_from_list,
        List.map_map, filter_self_idem]
      congr 1
      have h : ∀ t ∈ tr, (Track.remove_invalid ∘ Track.remove_invalid) t
          = Track.remove_invalid t := fun t _ => track_remove_invalid_idem t
      rw [List.map_congr_left h]

/-- C7: transposing every track by `n` semitones and then by `-n` restores
the container exactly — in particular every note in every track gets its
original pitch back. -/
theorem transpose_then_untranspose (m : Music) (n : Int) :
    (m.transpose n).transpose (-n) = m := by
  cases m with
  | mk md tm ts ks tp db ly an tr =>
      simp only [Music.transpose, List.map_map]
      congr 1
      have h : ∀ t ∈ tr, ((fun v => Track.transpose v (-n)) ∘
          fun v => Track.transpose v n) t = id t :=
        fun t _ => track_transpose_cancel t n
      rw [List.map_congr_left h, List.map_id]

/-- C8: the five converter-forwarding instance methods call their converter
but fall off the end of the function body, returning `None` rather than the
converter's value; `to_representation` and `to` return the converter's
result (`to` shown on one selector of each of its three accepting
branches). -/
theorem instance_methods_discard_results {ρ σ : Type} (cv : Converters ρ)
    (conv : Music → σ) (convT : Music → String → σ) (m : Music)
    (target : String) :
    Music.to_event_representation conv m = none ∧
    Music.to_note_representation conv m = none ∧
    Music.to_pianoroll_representation conv m = none ∧
    Music.to_pretty_midi conv m = none ∧
    Music.to_pypianoroll conv m = none ∧
    Music.to_representation convT m target = some (convT m target) ∧
    Music.to cv m ("event") = .ok (cv.to_representation m ("event")) ∧
    Music.to cv m ("pretty_midi") = .ok (cv.to_pretty_midi m) ∧
    Music.to cv m ("pypianoroll") = .ok (cv.to_pypianoroll m) :=
  ⟨rfl, rfl, rfl, rfl, rfl, rfl, rfl, rfl, rfl⟩

/-- C10: appending a `Note` raises a `TypeError` whose message nevertheless
lists Note among the expected types; and the objects `append` accepts are
exactly the six entity types TimeSignature, KeySignature, Tempo, Lyric,
Annotation (`Annot`) and Track — nothing else. -/
theorem append_rejects_note (m : Music) :
    (∀ n : Note, m.append (.note n)
      = .error ("Expect TimeSignature, KeySignature, Tempo, Note, Lyric, " ++
          "Annotation or Track object, but got " ++ "Note" ++ ".")) ∧
    (∀ obj : MuspyObject, (∃ m', m.append obj = .ok m') ↔
      (match obj with
       | .timeSignature _ => True
       | .keySignature _ => True
       | .tempo _ => True
       | .lyric _ => True
       | .annot _ => True
       | .track _ => True
       | .note _ => False
       | .other _ => False)) := by
  refine ⟨fun n => rfl, fun obj => ?_⟩
  cases obj <;> simp [Music.append]

/-! ### Length-query lemmas -/

theorem bind_none_const {α β : Type} (x : Option α) :
    x.bind (fun _ => (none : Option β)) = none := by cases x <;> rfl

theorem bind_congr_none {α β : Type} {o : Option α} {f : α → Option β}
    (hf : ∀ x, f x = none) : o.bind f = none := by cases o <;> simp [hf]

theorem listMax_isSome {l : List Int} (h : l ≠ []) :
    (listMax l).isSome = true := by
  cases l with
  | nil => exact absurd rfl h
  | cons x xs => simp [listMax]

theorem seqOptions_cons_ne {l : List (Option Int)}
    (hall : ∀ x ∈ l, x.isSome = true) (hne : l ≠ []) :
    ∃ v vs, seqOptions l = some (v :: vs) := by
  induction l with
  | nil => exact absurd rfl hne
  | cons a xs ih =>
      obtain ⟨v, rfl⟩ :=
        Option.isSome_iff_exists.mp (hall a (List.mem_cons_self a xs))
      cases xs with
      | nil => exact ⟨v, [], rfl⟩
      | cons y ys =>
          obtain ⟨w, ws, hw⟩ :=
            ih (fun z hz => hall z (List.mem_cons_of_mem _ hz)) (by simp)
          exact ⟨v, w :: ws, by simp [seqOptions, hw]⟩

theorem track_sort_active (t : Track) (b b' : Bool) :
    (Track.sort t).get_active_length b = t.get_active_length b' := by
  simp only [Track.sort, Track.get_active_length]
  exact listMax_perm ((stableSort_perm _ t.notes).map fun n => n.end_time)

theorem music_sort_active (m : Music) (b b' : Bool) :
    m.sort.get_active_length b = m.get_active_length b' := by
  simp only [Music.sort, Music.get_active_length, List.map_map]
  have h : ∀ t ∈ m.tracks,
      ((fun t => Track.get_active_length t b) ∘ Track.sort) t
        = Track.get_active_length t b' := fun t _ => track_sort_active t b b'
  rw [List.map_congr_left h]

theorem music_active_isSome (m : Music) (b : Bool) (htr : m.tracks ≠ [])
    (hn : ∀ t ∈ m.tracks, t.notes ≠ []) :
    (m.get_active_length b).isSome = true := by
  simp only [Music.get_active_length]
  have hall : ∀ x ∈ m.tracks.map (fun t => t.get_active_length b),
      x.isSome = true := by
    intro x hx
    obtain ⟨t, ht, rfl⟩ := List.mem_map.mp hx
    exact listMax_isSome (by simpa using hn t ht)
  have hne : m.tracks.map (fun t => t.get_active_length b) ≠ [] := by
    simpa using htr
  obtain ⟨v, vs, hv⟩ := seqOptions_cons_ne hall hne
  rw [hv]
  simp [listMax]

theorem get_length_true_eq (m : Music) :
    m.get_length true =
      (m.get_active_length true).bind (fun a =>
        m.time_signatures.getLast?.bind (fun ts =>
          m.key_signatures.getLast?.bind (fun ks =>
            m.tempos.getLast?.bind (fun tp =>
              m.lyrics.getLast?.bind (fun ly =>
                m.annotations.getLast?.bind (fun an =>
                  some (max a (max ts.time (max ks.time (max tp.time
                    (max ly.time an.time))))))))))) := rfl

theorem get_length_false_eq (m : Music) :
    m.get_length false =
      (m.get_active_length false).bind (fun a =>
        (listMax (m.time_signatures.map fun x => x.time)).bind (fun t1 =>
          (listMax (m.key_signatures.map fun x => x.time)).bind (fun t2 =>
            (listMax (m.tempos.map fun x => x.time)).bind (fun t3 =>
              (listMax (m.lyrics.map fun x => x.time)).bind (fun t4 =>
                (listMax (m.annotations.map fun x => x.time)).bind (fun t5 =>
                  some (max a (max t1 (max t2 (max t3
                    (max t4 t5))))))))))) := rfl

/-- C2 counterexample: a fully populated container (non-empty tracks and all
five time-stamped sequences non-empty) on which `get_length(is_sorted=True)`
after `sort()` differs from `get_length(is_sorted=False)` before sorting:
`sort` orders `time_signatures` by `start` while the sorted-path of
`get_length` reads the last element's `time`, so a time signature whose
`start` order disagrees with its `time` order breaks the equivalence. -/
theorem get_length_equiv_counterexample :
    mC2cex.tracks ≠ [] ∧ mC2cex.time_signatures ≠ [] ∧
    mC2cex.key_signatures ≠ [] ∧ mC2cex.tempos ≠ [] ∧
    mC2cex.lyrics ≠ [] ∧ mC2cex.annotations ≠ [] ∧
    mC2cex.sort.get_length true = some 0 ∧
    mC2cex.get_length false = some 10 ∧
    mC2cex.sort.get_length true ≠ mC2cex.get_length false := by decide

/-- C2 (amended): for a fully populated container in which, additionally,
every time signature's `start` equals its `time`, the value of
`get_length(is_sorted=True)` after `sort()` equals the value of
`get_length(is_sorted=False)` before sorting. -/
theorem get_length_sorted_eq_unsorted (m : Music)
    (hts : ∀ x ∈ m.time_signatures, x.start = x.time)
    (htr : m.tracks ≠ []) (h1 : m.time_signatures ≠ [])
    (h2 : m.key_signatures ≠ []) (h3 : m.tempos ≠ [])
    (h4 : m.lyrics ≠ []) (h5 : m.annotations ≠ []) :
    m.sort.get_length true = m.get_length false := by
  obtain ⟨b1, hb1, _, hm1⟩ := stableSort_getLast_max (fun x => x.start)
    (fun x => x.time) m.time_signatures hts h1
  obtain ⟨b2, hb2, _, hm2⟩ := stableSort_getLast_max (fun x => x.time)
    (fun x => x.time) m.key_signatures (fun _ _ => rfl) h2
  obtain ⟨b3, hb3, _, hm3⟩ := stableSort_getLast_max (fun x => x.time)
    (fun x => x.time) m.tempos (fun _ _ => rfl) h3
  obtain ⟨b4, hb4, _, hm4⟩ := stableSort_getLast_max (fun x => x.time)
    (fun x => x.time) m.lyrics (fun _ _ => rfl) h4
  obtain ⟨b5, hb5, _, hm5⟩ := stableSort_getLast_max (fun x => x.time)
    (fun x => x.time) m.annotations (fun _ _ => rfl) h5
  have hb1' : m.sort.time_signatures.getLast? = some b1 := hb1
  have hb2' : m.sort.key_signatures.getLast? = some b2 := hb2
  have hb3' : m.sort.tempos.getLast? = some b3 := hb3
  have hb4' : m.sort.lyrics.getLast? = some b4 := hb4
  have hb5' : m.sort.annotations.getLast? = some b5 := hb5
  have hm1' : listMax (m.time_signatures.map fun x => x.time)
      = some b1.time := hm1
  have hm2' : listMax (m.key_signatures.map fun x => x.time)
      = some b2.time := hm2
  have hm3' : listMax (m.tempos.map fun x => x.time) = some b3.time := hm3
  have hm4' : listMax (m.lyrics.map fun x => x.time) = some b4.time := hm4
  have hm5' : listMax (m.annotations.map fun x => x.time)
      = some b5.time := hm5
  have hact : m.sort.get_active_length true = m.get_active_length false :=
    music_sort_active m true false
  rw [get_length_true_eq m.sort, get_length_false_eq m, hact,
    hb1', hb2', hb3', hb4', hb5', hm1', hm2', hm3', hm4', hm5']
  cases m.get_active_length false with
  | none => rfl
  | some a => rfl

/-- C2 witness: the amended equivalence, instantiated on a concrete fully
populated container whose time signatures have `start = time`. -/
theorem get_length_sorted_eq_unsorted_witness :
    mWit.sort.get_length true = mWit.get_length false :=
  get_length_sorted_eq_unsorted mWit (by decide) (by decide) (by decide)
    (by decide) (by decide) (by decide) (by decide)

/-- C9 counterexample: a container with a non-empty track list and all five
time-stamped sequences non-empty — the claim's precondition for totality —
on which both paths of `get_length` still fail, because its single track has
no notes and `Track.get_active_length` is an empty aggregation there. -/
theorem get_length_total_counterexample :
    mC9cex.tracks ≠ [] ∧ mC9cex.time_signatures ≠ [] ∧
    mC9cex.key_signatures ≠ [] ∧ mC9cex.tempos ≠ [] ∧
    mC9cex.lyrics ≠ [] ∧ mC9cex.annotations ≠ [] ∧
    mC9cex.get_length true = none ∧ mC9cex.get_length false = none := by
  decide

/-- C9 (amended): the sorted path of `get_length` fails whenever any one of
the five time-stamped sequences is empty (the last-element lookup has no
value); and under the precondition that the track list and all five
sequences are non-empty AND every track contains at least one note, both
paths of `get_length` are total. -/
theorem get_length_empty_hazard_and_total (m : Music) :
    ((m.time_signatures = [] ∨ m.key_signatures = [] ∨ m.tempos = [] ∨
        m.lyrics = [] ∨ m.annotations = []) → m.get_length true = none) ∧
    (m.tracks ≠ [] → (∀ t ∈ m.tracks, t.notes ≠ []) →
      m.time_signatures ≠ [] → m.key_signatures ≠ [] → m.tempos ≠ [] →
      m.lyrics ≠ [] → m.annotations ≠ [] →
      ∀ b, (m.get_length b).isSome = true) := by
  constructor
  · intro h
    rw [get_length_true_eq]
    rcases h with h | h | h | h | h <;> rw [h]
    · exact bind_congr_none fun a => rfl
    · exact bind_congr_none fun a => bind_congr_none fun ts => rfl
    · exact bind_congr_none fun a =>
        bind_congr_none fun ts => bind_congr_none fun ks => rfl
    · exact bind_congr_none fun a => bind_congr_none fun ts =>
        bind_congr_none fun ks => bind_congr_none fun tp => rfl
    · exact bind_congr_none fun a =>
        bind_congr_none fun ts => bind_congr_none fun ks =>
          bind_congr_none fun tp => bind_congr_none fun ly => rfl
  · intro htr hn h1 h2 h3 h4 h5 b
    obtain ⟨a, ha⟩ :=
      Option.isSome_iff_exists.mp (music_active_isSome m b htr hn)
    cases b with
    | false =>
        obtain ⟨t1, ht1⟩ := Option.isSome_iff_exists.mp
          (@listMax_isSome (m.time_signatures.map fun x => x.time)
            (by simpa using h1))
        obtain ⟨t2, ht2⟩ := Option.isSome_iff_exists.mp
          (@listMax_isSome (m.key_signatures.map fun x => x.time)
            (by simpa using h2))
        obtain ⟨t3, ht3⟩ := Option.isSome_iff_exists.mp
          (@listMax_isSome (m.tempos.map fun x => x.time)
            (by simpa using h3))
        obtain ⟨t4, ht4⟩ := Option.isSome_iff_exists.mp
          (@listMax_isSome (m.lyrics.map fun x => x.time)
            (by simpa using h4))
        obtain ⟨t5, ht5⟩ := Option.isSome_iff_exists.mp
          (@listMax_isSome (m.annotations.map fun x => x.time)
            (by simpa using h5))
        rw [get_length_false_eq, ha, ht1, ht2, ht3, ht4, ht5]
        rfl
    | true =>
        obtain ⟨x1, hx1⟩ :=
          Option.isSome_iff_exists.mp (List.getLast?_isSome.mpr h1)
        obtain ⟨x2, hx2⟩ :=
          Option.isSome_iff_exists.mp (List.getLast?_isSome.mpr h2)
        obtain ⟨x3, hx3⟩ :=
          Option.isSome_iff_exists.mp (List.getLast?_isSome.mpr h3)
        obtain ⟨x4, hx4⟩ :=
          Option.isSome_iff_exists.mp (List.getLast?_isSome.mpr h4)
        obtain ⟨x5, hx5⟩ :=
          Option.isSome_iff_exists.mp (List.getLast?_isSome.mpr h5)
        rw [get_length_true_eq, ha, hx1, hx2, hx3, hx4, hx5]
        rfl

/-- C9 witness: the amended statement instantiated on concrete containers —
the default-constructed container has an empty-sequence failure on the
sorted path, and the fully populated container with a non-empty-noted track
has values on both paths. -/
theorem get_length_empty_hazard_and_total_witness :
    emptyMusic.get_length true = none ∧
    (mWit.get_length true).isSome = true ∧
    (mWit.get_length false).isSome = true :=
  ⟨(get_length_empty_hazard_and_total emptyMusic).1 (Or.inl rfl),
   (get_length_empty_hazard_and_total mWit).2 (by decide) (by decide)
     (by decide) (by decide) (by decide) (by decide) (by decide) true,
   (get_length_empty_hazard_and_total mWit).2 (by decide) (by decide)
     (by decide) (by decide) (by decide) (by decide) (by decide) false⟩
